import Mathlib

/-!
Verification of the `criterion_cbor` library (a reader for the CBOR output of
`cargo criterion`) against its natural-language specification.

The development shallowly embeds the relevant parts of `src/lib.rs`,
`src/sqlite.rs` and `examples/dump_and_check.rs`:

- Rust panics (`assert!`, `unreachable!`, `expect`) are modelled by an
  explicit `panic` constructor of the result type, so that "diverges with a
  panic" and "returns a value" are distinguishable outcomes.
- The filesystem is modelled by an inductive tree of named files and
  directories; `walkdir` with the sorting comparator of `Search::in_target_dir`
  is modelled by a recursive traversal that sorts each directory with a stable
  merge sort using that comparator.
- External collaborators (the CBOR decoder, `std::fs::read`, SQLite queries)
  are modelled as explicit function or data parameters describing only their
  interface (bytes to record or failure, path to byte outcome, and so on).
-/

namespace CriterionCbor

/-! ## String ordering model

Rust compares `OsStr` / `str` file names byte-wise lexicographically; for
UTF-8 this coincides with lexicographic comparison of the Unicode scalar
values. We model it by a boolean lexicographic order on `String.data`. -/

/-- Lexicographic strict order on lists of characters (by scalar value),
modelling the byte-wise ordering used by Rust on file names. -/
def strLtData : List Char → List Char → Bool
  | [], [] => false
  | [], _ :: _ => true
  | _ :: _, [] => false
  | c1 :: r1, c2 :: r2 => if c1 < c2 then true else if c2 < c1 then false else strLtData r1 r2

/-- Strict order on strings, modelling Rust string/OsStr comparison. -/
def strLt (s1 s2 : String) : Bool := strLtData s1.data s2.data

/-- Three-way comparison on strings, modelling Rust `Ord::cmp` on file names. -/
def cmpStr (s1 s2 : String) : Ordering :=
  if strLt s1 s2 then .lt else if strLt s2 s1 then .gt else .eq

theorem strLtData_cons (c1 c2 : Char) (r1 r2 : List Char) :
    strLtData (c1 :: r1) (c2 :: r2) =
      (if c1 < c2 then true else if c2 < c1 then false else strLtData r1 r2) := rfl

theorem strLtData_irrefl (l : List Char) : strLtData l l = false := by
  induction l with
  | nil => rfl
  | cons c r ih => rw [strLtData_cons, if_neg (lt_irrefl c), if_neg (lt_irrefl c), ih]

theorem strLtData_trans {a b c : List Char} (hab : strLtData a b = true)
    (hbc : strLtData b c = true) : strLtData a c = true := by
  induction b generalizing a c with
  | nil => cases a <;> simp [strLtData] at hab
  | cons b1 br ih =>
    cases a with
    | nil =>
      cases c with
      | nil => simp [strLtData] at hbc
      | cons c1 cr => rfl
    | cons a1 ar =>
      cases c with
      | nil => simp [strLtData] at hbc
      | cons c1 cr =>
        rw [strLtData_cons] at hab hbc ⊢
        rcases lt_trichotomy a1 b1 with h1 | h1 | h1
        · rcases lt_trichotomy b1 c1 with h2 | h2 | h2
          · rw [if_pos (lt_trans h1 h2)]
          · rw [if_pos (h2 ▸ h1)]
          · rw [if_neg (asymm h2), if_pos h2] at hbc
            exact (Bool.false_ne_true hbc).elim
        · subst h1
          rw [if_neg (lt_irrefl a1), if_neg (lt_irrefl a1)] at hab
          rcases lt_trichotomy a1 c1 with h2 | h2 | h2
          · rw [if_pos h2]
          · subst h2
            rw [if_neg (lt_irrefl a1), if_neg (lt_irrefl a1)] at hbc ⊢
            exact ih hab hbc
          · rw [if_neg (asymm h2), if_pos h2] at hbc
            exact (Bool.false_ne_true hbc).elim
        · rw [if_neg (asymm h1), if_pos h1] at hab
          exact (Bool.false_ne_true hab).elim

theorem strLtData_asymm {a b : List Char} (hab : strLtData a b = true) :
    strLtData b a = false := by
  induction a generalizing b with
  | nil =>
    cases b with
    | nil => simp [strLtData] at hab
    | cons b1 br => rfl
  | cons a1 ar ih =>
    cases b with
    | nil => simp [strLtData] at hab
    | cons b1 br =>
      rw [strLtData_cons] at hab ⊢
      rcases lt_trichotomy a1 b1 with h1 | h1 | h1
      · rw [if_neg (asymm h1), if_pos h1]
      · subst h1
        rw [if_neg (lt_irrefl a1), if_neg (lt_irrefl a1)] at hab ⊢
        exact ih hab
      · rw [if_neg (asymm h1), if_pos h1] at hab
        exact (Bool.false_ne_true hab).elim

theorem strLtData_antisymm {a b : List Char} (hab : strLtData a b = false)
    (hba : strLtData b a = false) : a = b := by
  induction a generalizing b with
  | nil =>
    cases b with
    | nil => rfl
    | cons b1 br => simp [strLtData] at hab
  | cons a1 ar ih =>
    cases b with
    | nil => simp [strLtData] at hba
    | cons b1 br =>
      rw [strLtData_cons] at hab hba
      rcases lt_trichotomy a1 b1 with h1 | h1 | h1
      · rw [if_pos h1] at hab
        simp at hab
      · subst h1
        rw [if_neg (lt_irrefl a1), if_neg (lt_irrefl a1)] at hab hba
        rw [ih hab hba]
      · rw [if_pos h1] at hba
        simp at hba

/-! ## Identity decoder (`RawBenchmarkId::decode` in `src/lib.rs`)

`criterion::Throughput` is an external enum; we model its three variants.
Rust panics are modelled by the `panic` constructor of `Panics`. -/

/-- Outcome of a Rust computation that can panic: either a returned value or
a panic (process abort) carrying a message. -/
inductive Panics (α : Type) where
  | ok (value : α)
  | panic (message : String)
deriving DecidableEq, Repr

/-- Model of the external `criterion::Throughput` enum. -/
inductive Throughput where
  | Bytes (n : Nat)
  | BytesDecimal (n : Nat)
  | Elements (n : Nat)
deriving DecidableEq, Repr

/-- Model of `RawBenchmarkId`: the four fields deserialized from a
`benchmark.cbor` metadata record. -/
structure RawBenchmarkId where
  group_or_function_id : String
  function_id_in_group : Option String
  value_str : Option String
  throughput : Option Throughput
deriving DecidableEq, Repr

/-- Model of `MemberId`: textual identifier of a benchmark inside a group. -/
inductive MemberId where
  | String (s : String)
  | FromParameter (parameter : String)
  | Full (function_name : String) (parameter : String)
deriving DecidableEq, Repr

/-- Model of `BenchmarkId`: the high-level interpretation of a
`RawBenchmarkId`. -/
inductive BenchmarkId where
  | BenchFunction (function_id : String)
  | AmbiguousFromParameter (group_or_function_id : String) (parameter : String)
  | InGroup (group_id : String) (member_id : MemberId) (throughput : Option Throughput)
deriving DecidableEq, Repr

/-- Model of `RawBenchmarkId::decode`. The source matches on the triple
`(function_id_in_group, value_str, throughput)`; the `(None, None, Some)`
arm executes `unreachable!(..)`, which aborts the process, modelled here by
the `panic` constructor. -/
def RawBenchmarkId.decode (id : RawBenchmarkId) : Panics BenchmarkId :=
  match id.function_id_in_group, id.value_str, id.throughput with
  | none, none, none =>
    .ok (.BenchFunction id.group_or_function_id)
  | none, none, some _ =>
    .panic "Cant specify throughput in non-grouped Criterion benchmarks"
  | none, some parameter, some throughput =>
    .ok (.InGroup id.group_or_function_id (.FromParameter parameter) (some throughput))
  | none, some parameter, none =>
    .ok (.AmbiguousFromParameter id.group_or_function_id parameter)
  | some string, none, throughput =>
    .ok (.InGroup id.group_or_function_id (.String string) throughput)
  | some function_name, some parameter, throughput =>
    .ok (.InGroup id.group_or_function_id (.Full function_name parameter) throughput)

/-! ## Record readers (`Benchmark::metadata`, `Measurement::data`)

Both operations read a file with `std::fs::read` (an external collaborator:
either an `io::Error`, propagated by `?` as a returned error value, or the
raw bytes) and then run the external CBOR decoder on the bytes, calling
`.expect(..)` on its result, which panics when the decoder rejects the
bytes. Bytes are modelled as `List Nat` and the decoder as a function to
`Option` (`none` meaning the decoder rejects the bytes). -/

/-- Outcome of one of the per-record read operations. -/
inductive ReadOutcome (α : Type) where
  | ok (value : α)
  | ioError (error : String)
  | panic (message : String)
deriving DecidableEq, Repr

/-- Model of `BenchmarkMetadata`: contents of a `benchmark.cbor` file. -/
structure BenchmarkMetadata where
  id : RawBenchmarkId
  latest_record : String
deriving DecidableEq, Repr

/-- Model of the external `ConfidenceInterval` record shape; `F` abstracts
the `f64` type of the source. -/
structure ConfidenceInterval (F : Type) where
  confidence_level : F
  lower_bound : F
  upper_bound : F

/-- Model of the `Estimate` record shape. -/
structure Estimate (F : Type) where
  confidence_interval : ConfidenceInterval F
  point_estimate : F
  standard_error : F

/-- Model of the `Estimates` record shape. -/
structure Estimates (F : Type) where
  mean : Estimate F
  median : Estimate F
  median_abs_dev : Estimate F
  slope : Option (Estimate F)
  std_dev : Estimate F

/-- Model of the `ChangeEstimates` record shape. -/
structure ChangeEstimates (F : Type) where
  mean : Estimate F
  median : Estimate F

/-- Model of the `ChangeDirection` enum. -/
inductive ChangeDirection where
  | NoChange
  | NotSignificant
  | Improved
  | Regressed
deriving DecidableEq, Repr

/-- Model of `MeasurementData`: contents of a `measurement_<datetime>.cbor`
file. `F` abstracts the `f64` type of the source and the `datetime` field
(an absolute UTC timestamp) is modelled as an integer. -/
structure MeasurementData (F : Type) where
  datetime : Int
  iterations : List F
  values : List F
  avg_values : List F
  estimates : Estimates F
  throughput : Option Throughput
  changes : Option (ChangeEstimates F)
  change_direction : Option ChangeDirection
  history_id : Option String
  history_description : Option String

/-- Model of the common body of `Benchmark::metadata` and
`Measurement::data`: `std::fs::read(..)?` followed by
`serde_cbor::from_slice(..).expect(..)`. -/
def readRecord {α : Type} (fsRead : Except String (List Nat))
    (decoder : List Nat → Option α) : ReadOutcome α :=
  match fsRead with
  | .error e => .ioError e
  | .ok bytes =>
    match decoder bytes with
    | some record => .ok record
    | none => .panic "Failed to deserialize benchmark metadata"

/-- Model of `Benchmark::metadata`. -/
def Benchmark.metadataRead (fsRead : Except String (List Nat))
    (decoder : List Nat → Option BenchmarkMetadata) : ReadOutcome BenchmarkMetadata :=
  readRecord fsRead decoder

/-- Model of `Measurement::data` (the panic message of the source is the
same as in `Benchmark::metadata`, a copy-paste in the source). -/
def Measurement.dataRead {F : Type} (fsRead : Except String (List Nat))
    (decoder : List Nat → Option (MeasurementData F)) : ReadOutcome (MeasurementData F) :=
  readRecord fsRead decoder

/-! ## Measurement file name parsing (`parse_measurement_datetime`)

The source strips the `measurement_` beginning and the `.cbor` ending with
`str::strip_prefix` / `str::strip_suffix` (each `expect`ed, so a mismatch
panics) and hands the middle to chrono with the format string
`%y%m%d%H%M%S`. -/

/-- Naive date and time, modelling chrono `NaiveDateTime` at the precision
relevant here. -/
structure NaiveDT where
  year : Nat
  month : Nat
  day : Nat
  hour : Nat
  minute : Nat
  second : Nat
deriving DecidableEq, Repr

/-- Model of `str::strip_prefix`: remove the given beginning if present. -/
def stripLeading (pre s : String) : Option String :=
  if pre.data.isPrefixOf s.data then some (String.mk (s.data.drop pre.data.length)) else none

/-- Model of `str::strip_suffix`: remove the given ending if present. -/
def stripTrailing (suf s : String) : Option String :=
  if suf.data.isSuffixOf s.data then
    some (String.mk (s.data.take (s.data.length - suf.data.length)))
  else none

/-- Numeric value of a decimal digit character. -/
def digitVal (c : Char) : Nat := c.toNat - 48

/-- Gregorian leap year test. -/
def isLeapYear (y : Nat) : Bool := (y % 4 == 0 && y % 100 != 0) || (y % 400 == 0)

/-- Number of days of a month in the proleptic Gregorian calendar. -/
def daysInMonth (y m : Nat) : Nat :=
  if m = 2 then (if isLeapYear y then 29 else 28)
  else if m = 4 ∨ m = 6 ∨ m = 9 ∨ m = 11 then 30
  else 31

/-- Model of Rust `str::trim_start` as chrono applies it before each
numeric field (the model covers the ASCII whitespace characters of
`Char.isWhitespace`; chrono trims the full Unicode White_Space set). -/
def trimStart : List Char → List Char
  | [] => []
  | c :: rest => if c.isWhitespace then trimStart rest else c :: rest

/-- Model of chrono `scan::number(s, 1, 2)`: greedily consume one or two
ASCII decimal digits and return their value together with the remaining
input; fails when the input does not start with a digit. -/
def scanNum2 : List Char → Option (Nat × List Char)
  | [] => none
  | c :: rest =>
    if c.isDigit then
      match rest with
      | [] => some (digitVal c, [])
      | c2 :: rest2 =>
        if c2.isDigit then some (10 * digitVal c + digitVal c2, rest2)
        else some (digitVal c, c2 :: rest2)
    else none

/-- One numeric field of a chrono format: trim leading whitespace, then
scan one or two digits. -/
def scanField (l : List Char) : Option (Nat × List Char) := scanNum2 (trimStart l)

/-- Resolution of the six parsed numeric fields into a date and time,
modelling chrono's `Parsed` resolution: the two-digit year maps 00-68 to
2000-2068 and 69-99 to 1969-1999, and the fields must form a valid
calendar date and time of day; `maxSecond` is 60 for chrono (second 60 is
its leap-second encoding) and 59 for the canonical zero-padded form. -/
def resolveYMDHMS (maxSecond yy month day hour minute second : Nat) : Option NaiveDT :=
  let year := if yy ≤ 68 then 2000 + yy else 1900 + yy
  if 1 ≤ month ∧ month ≤ 12 ∧ 1 ≤ day ∧ day ≤ daysInMonth year month ∧
      hour ≤ 23 ∧ minute ≤ 59 ∧ second ≤ maxSecond then
    some ⟨year, month, day, hour, minute, second⟩
  else none

/-- Modelled behaviour of the external chrono parser
`NaiveDateTime::parse_from_str` for the format string `%y%m%d%H%M%S` found
in the source: six numeric fields (two-digit-maximum year, month, day,
hour, minute, second), each parsed by trimming leading whitespace and then
greedily consuming one or two decimal digits; the whole input must be
consumed; the two-digit year maps 00-68 to 2000-2068 and 69-99 to
1969-1999; the resolved fields must form a valid calendar date and time of
day (second 60 is accepted as chrono's leap-second encoding). -/
def parseYYMMDDHHMMSS (s : String) : Option NaiveDT :=
  match scanField s.data with
  | none => none
  | some (yy, s1) =>
    match scanField s1 with
    | none => none
    | some (month, s2) =>
      match scanField s2 with
      | none => none
      | some (day, s3) =>
        match scanField s3 with
        | none => none
        | some (hour, s4) =>
          match scanField s4 with
          | none => none
          | some (minute, s5) =>
            match scanField s5 with
            | none => none
            | some (second, s6) =>
              if s6 = [] then resolveYMDHMS 60 yy month day hour minute second
              else none

/-- The canonical timestamp form described by the specification
(`YYMMDDHHMMSS`): exactly twelve decimal digits, zero-padded two-digit
fields, forming a valid calendar date and time. This is the shape
`cargo-criterion` writes; the lenient chrono parser modelled by
`parseYYMMDDHHMMSS` accepts strictly more inputs than this. -/
def parseCanonical12 (s : String) : Option NaiveDT :=
  match s.data with
  | [y1, y2, mo1, mo2, d1, d2, h1, h2, mi1, mi2, se1, se2] =>
    if (y1.isDigit && y2.isDigit && mo1.isDigit && mo2.isDigit && d1.isDigit && d2.isDigit &&
        h1.isDigit && h2.isDigit && mi1.isDigit && mi2.isDigit && se1.isDigit && se2.isDigit) then
      resolveYMDHMS 59 (10 * digitVal y1 + digitVal y2) (10 * digitVal mo1 + digitVal mo2)
        (10 * digitVal d1 + digitVal d2) (10 * digitVal h1 + digitVal h2)
        (10 * digitVal mi1 + digitVal mi2) (10 * digitVal se1 + digitVal se2)
    else none
  | _ => none

/-- Model of `parse_measurement_datetime`. The final
`Local.from_local_datetime` step (mapping the naive time into the local
timezone, an environment collaborator) is abstracted away: the model
returns the parsed naive date and time. -/
def parse_measurement_datetime (fileName : String) : Panics NaiveDT :=
  match stripLeading "measurement_" fileName with
  | none => .panic "Measurement file name should start with measurement_"
  | some rest =>
    match stripTrailing ".cbor" rest with
    | none => .panic "Measurement file name should end with .cbor extension"
    | some ts =>
      match parseYYMMDDHHMMSS ts with
      | none => .panic "Unexpected criterion measurement date and time format"
      | some dt => .ok dt

/-- The measurement file name pattern of the specification, with an explicit
digit count: `measurement_<timestamp>.cbor` where the timestamp consists of
`digits` decimal digits. -/
def matchesMeasurementPattern (digits : Nat) (name : String) : Prop :=
  ∃ ts : String, name = "measurement_" ++ ts ++ ".cbor" ∧
    ts.length = digits ∧ ts.data.all Char.isDigit = true

/-! ## Tree walker and grouper (`Search`, `BenchmarkIter`, `Benchmark`)

The filesystem below the Criterion data root is modelled as a tree of named
files and directories; the entries never contain symlinks, so the symlink
and file-type assertions of the source are vacuously satisfied by the
model. `walkdir` visits a directory's children in the order given by the
comparator passed to `sort_by` (modelled with a stable merge sort), emits a
directory entry before descending into it, and `min_depth(1)` suppresses the
entry of the root itself. -/

/-- A node of the filesystem tree below the data root. -/
inductive FsNode where
  | file (name : String)
  | dir (name : String) (children : List FsNode)

/-- Name of a filesystem node. -/
def FsNode.name : FsNode → String
  | .file n => n
  | .dir n _ => n

/-- Model of `DirEntry::file_type().is_file()`. -/
def FsNode.isFile : FsNode → Bool
  | .file _ => true
  | .dir _ _ => false

/-- Model of the comparator closure passed to `WalkDir::sort_by` in
`Search::in_target_dir`: files before directories, files in descending name
order (`entry2.file_name().cmp(entry1.file_name())`), directories in
ascending name order. -/
def cmpEntries (e1 e2 : FsNode) : Ordering :=
  match e1.isFile, e2.isFile with
  | true, false => .lt
  | false, true => .gt
  | true, true => cmpStr e2.name e1.name
  | false, false => cmpStr e1.name e2.name

/-- The non-strict "emitted no later than" relation a sort with comparator
`cmpEntries` establishes between entries. -/
def entryLE (e1 e2 : FsNode) : Bool := cmpEntries e1 e2 != Ordering.gt

/-- Emission order of the children of one directory: the walker sorts them
with the `cmpEntries` comparator (a stable sort, as `walkdir` sorts with
the standard library sort). -/
def sortChildren (children : List FsNode) : List FsNode := children.mergeSort entryLE

/-- A directory entry as yielded by the walk: name, kind, path of the parent
directory relative to the data root, and depth (children of the data root
have depth 1). -/
structure Entry where
  name : String
  isFile : Bool
  parent : List String
  depth : Nat
deriving DecidableEq, Repr

mutual

/-- Entries emitted by the walk for one node: the node's own entry followed,
for a directory, by the entries of its children in sorted order. -/
def walkNode : FsNode → Nat → List String → List Entry
  | .file name, depth, parent => [⟨name, true, parent, depth⟩]
  | .dir name children, depth, parent =>
    ⟨name, false, parent, depth⟩ ::
      walkNodes (sortChildren children) (depth + 1) (parent ++ [name])
termination_by n _ _ => sizeOf n
decreasing_by
  simp_wf
  have hp : sizeOf (sortChildren children) = sizeOf children :=
    (List.mergeSort_perm children entryLE).sizeOf_eq_sizeOf
  omega

/-- Entries emitted by the walk for a list of sibling nodes, in order. -/
def walkNodes : List FsNode → Nat → List String → List Entry
  | [], _, _ => []
  | n :: rest, depth, parent => walkNode n depth parent ++ walkNodes rest depth parent
termination_by l _ _ => sizeOf l
decreasing_by
  all_goals simp_wf
  all_goals omega

end

/-- Model of the whole entry stream of the configured `WalkDir` iterator:
`min_depth(1)` makes the walk start from the sorted children of the data
root, at depth 1. -/
def walkFromRoot (rootChildren : List FsNode) : List Entry :=
  walkNodes (sortChildren rootChildren) 1 []

/-- Model of the `Benchmark` struct: one benchmark unit. The
`path_from_data_root` is the path of the directory holding the unit's
files, relative to the data root. -/
structure Benchmark where
  path_from_data_root : List String
  metadata : Entry
  measurements : List Entry
deriving DecidableEq, Repr

/-- Model of `Benchmark::new`: asserts that the metadata entry is a file
named `benchmark.cbor` and that the measurement set is non-empty (both
panics in the source), then records the parent directory of the metadata
file as the unit's relative path (the source strips the data root from the
absolute parent path; entry parents are already relative in the model). -/
def Benchmark.new (metadata : Entry) (measurements : List Entry) : Panics Benchmark :=
  if metadata.isFile = true ∧ metadata.name = "benchmark.cbor" then
    if measurements.isEmpty then
      .panic "Attempted to construct a Benchmark even though there is no measurements"
    else
      .ok ⟨metadata.parent, metadata, measurements⟩
  else
    .panic "Encountered unexpected file in Criterion data directory"

/-- Model of `BenchmarkIter::emit_benchmark`: pop the last accumulated file
(the metadata, by sort order) and turn the rest, in order, into the unit's
measurements; an empty accumulator produces nothing. -/
def emitBenchmark (files : List Entry) : Option (Panics Benchmark) :=
  match files.getLast? with
  | none => none
  | some metadata => some (Benchmark.new metadata files.dropLast)

/-- The items produced by flushing the accumulator: none when it is empty,
one benchmark (or one panic) otherwise. -/
def flushFiles (files : List Entry) : List (Panics Benchmark) :=
  match emitBenchmark files with
  | none => []
  | some b => [b]

/-- Model of the grouping loop of `BenchmarkIter::next`, driven over the
whole entry stream: while the next entry is a file with the same depth and
parent as the last accumulated file it is appended to the accumulator;
otherwise the accumulator is flushed and processing restarts at the current
entry with an empty accumulator (a file starts a new accumulator, a
directory entry is only traversed past); the end of the stream flushes the
accumulator one last time. -/
def groupStep (acc : List Entry) : List Entry → List (Panics Benchmark)
  | [] => flushFiles acc
  | e :: rest =>
    match acc.getLast? with
    | none => groupStep (if e.isFile then [e] else []) rest
    | some lastFile =>
      if e.depth = lastFile.depth ∧ e.isFile = true ∧ e.parent = lastFile.parent then
        groupStep (acc ++ [e]) rest
      else
        flushFiles acc ++ groupStep (if e.isFile then [e] else []) rest

/-- All benchmark units (or per-unit panics) produced by walking an existing
data root with the given children. -/
def walkBenchmarks (rootChildren : List FsNode) : List (Panics Benchmark) :=
  groupStep [] (walkFromRoot rootChildren)

/-- Model of `Search::find_all` combined with `BenchmarkIter::{new, next}`:
when the data root does not exist (`none`), the `no_data` flag makes the
iterator yield nothing at all (no items, no errors); otherwise the walk
runs on the data root's children. -/
def find_all (dataRootContents : Option (List FsNode)) : List (Panics Benchmark) :=
  match dataRootContents with
  | none => []
  | some children => walkBenchmarks children

/-- Model of the `Search` struct: the computed data root path. -/
structure Search where
  data_root : List String
deriving DecidableEq, Repr

/-- Model of `Search::in_target_dir`: asserts that the target directory
exists (panic otherwise) and appends the fixed `criterion/data/main` path
segments to obtain the data root. The filesystem is abstracted as an
existence predicate on paths (lists of path segments). -/
def Search.in_target_dir (exists_dir : List String → Bool)
    (targetPath : List String) : Panics Search :=
  if exists_dir targetPath then .ok ⟨targetPath ++ ["criterion", "data", "main"]⟩
  else .panic "Specified target directory does not exist"

/-- Model of `Search::in_cargo_root`: asserts that the Cargo root exists
(panic otherwise) and delegates to `in_target_dir` on `<root>/target`. -/
def Search.in_cargo_root (exists_dir : List String → Bool)
    (cargoRoot : List String) : Panics Search :=
  if exists_dir cargoRoot then Search.in_target_dir exists_dir (cargoRoot ++ ["target"])
  else .panic "Specified Cargo root does not exist"

/-! ## Incremental cache synchronization (`Connection::setup` in
`src/sqlite.rs`)

The database state read at the start of the pass is modelled by two
association lists: the contents of the `measurement` relation grouped by
relative parent path (`known_measurements` in the source) and the
per-benchmark `modified` column of the `benchmark` relation (the
`check_mtime` prepared query). The observable effects of one loop
iteration are modelled as a list of `DbAction`s. -/

/-- Observable database and decoder actions of one iteration of the update
loop of `Connection::setup`. -/
inductive DbAction where
  | decodeMetadataFile
  | decodeMeasurementFile (fileId : String)
  | insertMeasurementRow (fileId : String)
deriving DecidableEq, Repr

/-- Typed error of one iteration of the update loop (a failing
`query_row`, propagated by `?`). -/
inductive SqlError where
  | missingBenchmarkRow
deriving DecidableEq, Repr

/-- Association-list lookup, modelling `HashMap::get` and the prepared
`SELECT` by relative path. -/
def lookupAssoc {α : Type} : List (String × α) → String → Option α
  | [], _ => none
  | (k, v) :: rest, key => if k = key then some v else lookupAssoc rest key

/-- One benchmark unit as seen by the synchronization pass: its relative
path, the current filesystem modification time of its metadata file, and
the names of its measurement files. -/
structure SyncBenchmarkInput where
  relativePath : String
  fileMtime : Int
  measurementFiles : List String
deriving DecidableEq, Repr

/-- Model of the per-benchmark body of the update loop in
`Connection::setup`: if the relative path has known measurements, the
persisted metadata modification time is queried (an absent row fails the
pass) and the metadata file is read and decoded exactly when the file
modification time is strictly newer; an unknown path does nothing (the
creation of its entry is a TODO comment in the source). The loop body
never reads or inserts measurement files: that step is also only a TODO
comment in the source, which is why no iteration ever produces a
`decodeMeasurementFile` or `insertMeasurementRow` action. -/
def syncBenchmarkStep (knownMeasurements : List (String × List String))
    (dbMtimes : List (String × Int)) (b : SyncBenchmarkInput) :
    Except SqlError (List DbAction) :=
  match lookupAssoc knownMeasurements b.relativePath with
  | some _known =>
    match lookupAssoc dbMtimes b.relativePath with
    | none => .error .missingBenchmarkRow
    | some databaseMtime =>
      if b.fileMtime > databaseMtime then .ok [.decodeMetadataFile] else .ok []
  | none => .ok []

/-! ## Cross-check tooling (`examples/dump_and_check.rs`)

The example accesses the metadata identity through the field names of an
older API (`group_id`, `function_id`, `value_str`); they correspond to the
`group_or_function_id`, `function_id_in_group` and `value_str` fields of
`RawBenchmarkId`. -/

/-- Model of `make_filename_safe`: replace each occurrence of one of the ten
special characters by an underscore. -/
def make_filename_safe (s : String) : String :=
  String.mk (s.data.map fun c =>
    if c = '?' ∨ c = '"' ∨ c = '/' ∨ c = '\\' ∨ c = '*' ∨ c = '<' ∨ c = '>' ∨ c = ':' ∨
        c = '|' ∨ c = '^' then '_' else c)

/-- Model of the group-directory cross-check of the example: the observed
group directory name must equal the sanitized group id (assertion panic
otherwise). -/
def checkGroupDirectory (groupDirectory : String) (group_id : String) : Panics Unit :=
  if groupDirectory = make_filename_safe group_id then .ok ()
  else .panic "group directory does not match sanitized group id"

/-- Model of the benchmark-directory cross-check of the example: the
function id, or failing that the value string (`.or`), is sanitized and
compared with the observed benchmark directory name; identities with
neither field panic (`expect`), as do mismatching directory names. -/
def checkBenchDirectory (benchDirectory : String) (id : RawBenchmarkId) : Panics Unit :=
  match id.function_id_in_group.or id.value_str with
  | none => .panic "Only benchmarks with groups are supported, for now"
  | some s =>
    if benchDirectory = make_filename_safe s then .ok ()
    else .panic "bench directory does not match sanitized id"

end CriterionCbor

namespace CriterionCbor

theorem string_mk_data (s : String) : String.mk s.data = s := rfl

theorem stripLeading_append (p r : String) : stripLeading p (p ++ r) = some r := by
  rw [stripLeading, String.data_append,
    if_pos (List.isPrefixOf_iff_prefix.mpr (List.prefix_append _ _)), List.drop_left,
    string_mk_data]

theorem stripTrailing_append (suf r : String) : stripTrailing suf (r ++ suf) = some r := by
  rw [stripTrailing, String.data_append,
    if_pos (List.isSuffixOf_iff_suffix.mpr (List.suffix_append _ _))]
  rw [List.length_append, Nat.add_sub_cancel, List.take_left, string_mk_data]

theorem stripLeading_some {p s r : String} (h : stripLeading p s = some r) : s = p ++ r := by
  rw [stripLeading] at h
  by_cases hp : p.data.isPrefixOf s.data
  · rw [if_pos hp] at h
    obtain ⟨t, ht⟩ := (List.isPrefixOf_iff_prefix.mp hp)
    have hr := (Option.some.injEq _ _).mp h
    apply String.ext
    rw [String.data_append, ← hr]
    show s.data = p.data ++ List.drop p.data.length s.data
    rw [← ht, List.drop_left]
  · rw [if_neg hp] at h
    exact absurd h (by simp)

theorem stripTrailing_some {suf s r : String} (h : stripTrailing suf s = some r) :
    s = r ++ suf := by
  rw [stripTrailing] at h
  by_cases hp : suf.data.isSuffixOf s.data
  · rw [if_pos hp] at h
    obtain ⟨t, ht⟩ := (List.isSuffixOf_iff_suffix.mp hp)
    have hr := (Option.some.injEq _ _).mp h
    apply String.ext
    rw [String.data_append, ← hr]
    show s.data = List.take (s.data.length - suf.data.length) s.data ++ suf.data
    rw [← ht, List.length_append, Nat.add_sub_cancel, List.take_left]
  · rw [if_neg hp] at h
    exact absurd h (by simp)

theorem parseCanonical12_shape {ts : String} {dt : NaiveDT}
    (h : parseCanonical12 ts = some dt) :
    ts.length = 12 ∧ ts.data.all Char.isDigit = true := by
  rw [parseCanonical12] at h
  split at h
  case h_2 => exact absurd h (by simp)
  case h_1 y1 y2 mo1 mo2 d1 d2 h1 h2 mi1 mi2 se1 se2 heq =>
    split at h
    case isFalse => exact absurd h (by simp)
    case isTrue hdig =>
      refine ⟨?_, ?_⟩
      · show ts.data.length = 12
        rw [heq]
        rfl
      · rw [heq]
        simp only [List.all_cons, List.all_nil, Bool.and_true]
        simp only [Bool.and_eq_true] at hdig ⊢
        tauto

theorem isWhitespace_eq_false_of_isDigit {c : Char} (h : c.isDigit = true) :
    c.isWhitespace = false := by
  cases hw : c.isWhitespace
  · rfl
  · simp only [Char.isWhitespace, Bool.or_eq_true, decide_eq_true_eq] at hw
    rcases hw with ((rfl | rfl) | rfl) | rfl <;> exact absurd h (by decide)

theorem trimStart_cons_of_digit {c : Char} (rest : List Char) (h : c.isDigit = true) :
    trimStart (c :: rest) = c :: rest := by
  rw [trimStart, isWhitespace_eq_false_of_isDigit h]
  rfl

theorem scanNum2_two {c1 c2 : Char} (rest : List Char) (h1 : c1.isDigit = true)
    (h2 : c2.isDigit = true) :
    scanNum2 (c1 :: c2 :: rest) = some (10 * digitVal c1 + digitVal c2, rest) := by
  rw [scanNum2, h1, h2]
  rfl

theorem scanField_two {c1 c2 : Char} (rest : List Char) (h1 : c1.isDigit = true)
    (h2 : c2.isDigit = true) :
    scanField (c1 :: c2 :: rest) = some (10 * digitVal c1 + digitVal c2, rest) := by
  rw [scanField, trimStart_cons_of_digit _ h1, scanNum2_two rest h1 h2]

theorem resolveYMDHMS_mono {yy month day hour minute second : Nat} {dt : NaiveDT}
    (h : resolveYMDHMS 59 yy month day hour minute second = some dt) :
    resolveYMDHMS 60 yy month day hour minute second = some dt := by
  simp only [resolveYMDHMS] at h ⊢
  by_cases hy : yy ≤ 68
  · rw [if_pos hy] at h ⊢
    split at h
    next hc =>
      rw [if_pos ⟨hc.1, hc.2.1, hc.2.2.1, hc.2.2.2.1, hc.2.2.2.2.1, hc.2.2.2.2.2.1, by omega⟩]
      exact h
    next => exact absurd h (by simp)
  · rw [if_neg hy] at h ⊢
    split at h
    next hc =>
      rw [if_pos ⟨hc.1, hc.2.1, hc.2.2.1, hc.2.2.2.1, hc.2.2.2.2.1, hc.2.2.2.2.2.1, by omega⟩]
      exact h
    next => exact absurd h (by simp)

theorem parseYYMMDDHHMMSS_of_canonical {ts : String} {dt : NaiveDT}
    (h : parseCanonical12 ts = some dt) : parseYYMMDDHHMMSS ts = some dt := by
  rw [parseCanonical12] at h
  split at h
  case h_2 => exact absurd h (by simp)
  case h_1 y1 y2 mo1 mo2 d1 d2 h1 h2 mi1 mi2 se1 se2 heq =>
    split at h
    case isFalse => exact absurd h (by simp)
    case isTrue hdig =>
      simp only [Bool.and_eq_true] at hdig
      obtain ⟨⟨⟨⟨⟨⟨⟨⟨⟨⟨⟨hy1, hy2⟩, hmo1⟩, hmo2⟩, hd1⟩, hd2⟩, hh1⟩, hh2⟩, hmi1⟩, hmi2⟩,
        hse1⟩, hse2⟩ := hdig
      rw [parseYYMMDDHHMMSS, heq]
      simp only [scanField_two _ hy1 hy2, scanField_two _ hmo1 hmo2, scanField_two _ hd1 hd2,
        scanField_two _ hh1 hh2, scanField_two _ hmi1 hmi2, scanField_two _ hse1 hse2,
        if_pos rfl]
      exact resolveYMDHMS_mono h

/-- C1: the decoder is a pure total function of field presence and maps each
of the listed presence patterns to exactly the variant given by the table in
section 4.2 of the specification: no optional field gives a plain function
identity, (value and throughput without secondary) gives a grouped identity
keyed by the parameter, (value only) gives the tagged ambiguous variant, and
a present secondary gives a grouped identity whose member is the secondary
string alone or the full pair, with the throughput carried through as given. -/
theorem C1_decode_follows_table :
    (∀ g : String,
      RawBenchmarkId.decode ⟨g, none, none, none⟩ = .ok (.BenchFunction g)) ∧
    (∀ (g p : String) (t : Throughput),
      RawBenchmarkId.decode ⟨g, none, some p, some t⟩ =
        .ok (.InGroup g (.FromParameter p) (some t))) ∧
    (∀ g p : String,
      RawBenchmarkId.decode ⟨g, none, some p, none⟩ =
        .ok (.AmbiguousFromParameter g p)) ∧
    (∀ (g s : String) (t : Option Throughput),
      RawBenchmarkId.decode ⟨g, some s, none, t⟩ =
        .ok (.InGroup g (.String s) t)) ∧
    (∀ (g s p : String) (t : Option Throughput),
      RawBenchmarkId.decode ⟨g, some s, some p, t⟩ =
        .ok (.InGroup g (.Full s p) t)) := by
  refine ⟨fun g => rfl, fun g p t => rfl, fun g p => rfl, fun g s t => ?_, fun g s p t => ?_⟩
  · cases t <;> rfl
  · cases t <;> rfl

/-- C4 counterexample: on the concrete input with no secondary string, no
value string and a throughput present, `decode` panics (the `unreachable!`
arm) instead of returning an explicit invalid-schema value, so the claim
that it signals the violation as a returned value rather than a panic is
false on the code. -/
theorem C4_counterexample_decode_panics :
    RawBenchmarkId.decode ⟨"f", none, none, some (.Bytes 1)⟩ =
      .panic "Cant specify throughput in non-grouped Criterion benchmarks" := rfl

/-- C4 amended: for every input with no secondary string, no value string and
a throughput present, `decode` rejects the input by panicking with a
contract-violation message; the combination is never silently accepted as a
valid identity variant. -/
theorem C4_amended_decode_rejects_by_panic :
    ∀ (g : String) (t : Throughput),
      RawBenchmarkId.decode ⟨g, none, none, some t⟩ =
        .panic "Cant specify throughput in non-grouped Criterion benchmarks" :=
  fun _g _t => rfl

/-- C5 counterexample: on a concrete record whose bytes the external decoder
rejects (decoder returns no record on bytes `[0]`), `Benchmark::metadata`
panics via `expect` rather than surfacing the decode failure as a returned
error value, so the claim that the read operations return an error value
instead of diverging is false on the code. -/
theorem C5_counterexample_decode_failure_panics :
    Benchmark.metadataRead (.ok [0]) (fun _ => none) =
      .panic "Failed to deserialize benchmark metadata" := rfl

/-- C5 amended: the per-record read operations surface a failure of the
underlying file read as a returned error value, and return the decoded
record when the external decoder accepts the bytes, but when the external
decoder rejects the bytes they panic (diverge), treating the decode failure
as fatal like a layout violation rather than returning it as a value. -/
theorem C5_amended_io_error_value_decode_failure_panic :
    (∀ (e : String) (decoder : List Nat → Option BenchmarkMetadata),
      Benchmark.metadataRead (.error e) decoder = .ioError e) ∧
    (∀ (bytes : List Nat) (decoder : List Nat → Option BenchmarkMetadata),
      decoder bytes = none →
      Benchmark.metadataRead (.ok bytes) decoder =
        .panic "Failed to deserialize benchmark metadata") ∧
    (∀ (bytes : List Nat) (decoder : List Nat → Option BenchmarkMetadata)
        (r : BenchmarkMetadata),
      decoder bytes = some r → Benchmark.metadataRead (.ok bytes) decoder = .ok r) ∧
    (∀ (F : Type) (e : String) (decoder : List Nat → Option (MeasurementData F)),
      Measurement.dataRead (.error e) decoder = .ioError e) ∧
    (∀ (F : Type) (bytes : List Nat) (decoder : List Nat → Option (MeasurementData F)),
      decoder bytes = none →
      Measurement.dataRead (.ok bytes) decoder =
        .panic "Failed to deserialize benchmark metadata") := by
  refine ⟨fun e d => rfl, fun bytes d h => ?_, fun bytes d r h => ?_, fun F e d => rfl,
    fun F bytes d h => ?_⟩
  · simp [Benchmark.metadataRead, readRecord, h]
  · simp [Benchmark.metadataRead, readRecord, h]
  · simp [Measurement.dataRead, readRecord, h]

/-- C5 amended witness: concrete instances of the amended statement. -/
theorem C5_amended_witness :
    Benchmark.metadataRead (.error "io failure") (fun _ => none) = .ioError "io failure" ∧
    Benchmark.metadataRead (.ok [1]) (fun _ => none) =
      .panic "Failed to deserialize benchmark metadata" ∧
    @Measurement.dataRead Unit (.ok [2]) (fun _ => none) =
      .panic "Failed to deserialize benchmark metadata" :=
  ⟨C5_amended_io_error_value_decode_failure_panic.1 "io failure" _,
   C5_amended_io_error_value_decode_failure_panic.2.1 [1] _ rfl,
   C5_amended_io_error_value_decode_failure_panic.2.2.2.2 Unit [2] _ rfl⟩

/-- C9 counterexample: the concrete file name
`measurement_250102030405.cbor`, whose embedded timestamp has twelve digits
(not fourteen), is accepted by `parse_measurement_datetime` (a fourteen
digit timestamp cannot be: the six two-digit-maximum fields of
`%y%m%d%H%M%S` leave input unconsumed), so the claim that accepted
measurement file names carry a fourteen-digit timestamp is false on the
code. -/
theorem C9_counterexample_twelve_digits_accepted :
    parse_measurement_datetime "measurement_250102030405.cbor" =
      .ok ⟨2025, 1, 2, 3, 4, 5⟩ ∧
    ¬ matchesMeasurementPattern 14 "measurement_250102030405.cbor" := by
  constructor
  · rfl
  · rintro ⟨ts, heq, hlen, -⟩
    have hl := congrArg String.length heq
    rw [String.length_append, String.length_append] at hl
    have h1 : ("measurement_250102030405.cbor" : String).length = 29 := rfl
    have h2 : ("measurement_" : String).length = 12 := rfl
    have h3 : (".cbor" : String).length = 5 := rfl
    omega

/-- C9 amended: every measurement file name accepted by the system consists
of the fixed head `measurement_`, a timestamp accepted by chrono's lenient
`%y%m%d%H%M%S` parser (six fields — two-digit-maximum year, month, day,
hour, minute, second — each taking one or two digits after optional
leading whitespace, together consuming the whole timestamp and resolving
to a valid date and time), and the fixed `.cbor` extension; conversely
every such name is accepted, with the parse yielding exactly the encoded
local date and time; in particular every canonical twelve-digit
`YYMMDDHHMMSS` timestamp, the form the tool writes, is accepted, matches
the `measurement_<12-digit>` pattern and parses to its encoded fields,
while a fourteen-digit timestamp is rejected. -/
theorem C9_amended_chrono_lenient_pattern :
    (∀ (ts : String) (dt : NaiveDT), parseYYMMDDHHMMSS ts = some dt →
      parse_measurement_datetime ("measurement_" ++ ts ++ ".cbor") = .ok dt) ∧
    (∀ (name : String) (dt : NaiveDT), parse_measurement_datetime name = .ok dt →
      ∃ ts : String, name = "measurement_" ++ ts ++ ".cbor" ∧
        parseYYMMDDHHMMSS ts = some dt) ∧
    (∀ (ts : String) (dt : NaiveDT), parseCanonical12 ts = some dt →
      parse_measurement_datetime ("measurement_" ++ ts ++ ".cbor") = .ok dt ∧
        matchesMeasurementPattern 12 ("measurement_" ++ ts ++ ".cbor")) ∧
    parse_measurement_datetime "measurement_20250102030405.cbor" =
      .panic "Unexpected criterion measurement date and time format" := by
  have hfwd : ∀ (ts : String) (dt : NaiveDT), parseYYMMDDHHMMSS ts = some dt →
      parse_measurement_datetime ("measurement_" ++ ts ++ ".cbor") = .ok dt := by
    intro ts dt h
    simp only [parse_measurement_datetime, String.append_assoc, stripLeading_append,
      stripTrailing_append, h]
  refine ⟨hfwd, ?_, ?_, rfl⟩
  · intro name dt h
    rw [parse_measurement_datetime] at h
    cases hsl : stripLeading "measurement_" name with
    | none => simp only [hsl] at h; exact absurd h (by simp)
    | some rest =>
      simp only [hsl] at h
      cases hst : stripTrailing ".cbor" rest with
      | none => simp only [hst] at h; exact absurd h (by simp)
      | some ts =>
        simp only [hst] at h
        cases hp : parseYYMMDDHHMMSS ts with
        | none => simp only [hp] at h; exact absurd h (by simp)
        | some dt' =>
          simp only [hp] at h
          have hdt : dt' = dt := by
            have := (Panics.ok.injEq _ _).mp h
            exact this
          subst hdt
          have hname : name = "measurement_" ++ ts ++ ".cbor" := by
            rw [stripLeading_some hsl, stripTrailing_some hst, String.append_assoc]
          exact ⟨ts, hname, hp⟩
  · intro ts dt h
    refine ⟨hfwd ts dt (parseYYMMDDHHMMSS_of_canonical h), ts, rfl, ?_,
      (parseCanonical12_shape h).2⟩
    exact (parseCanonical12_shape h).1

/-- C9 amended witness: concrete instances of all four parts — a canonical
twelve-digit timestamp accepted through both the chrono-lenient direction
and the canonical direction, the inversion at a concrete accepted name,
acceptance of an eleven-digit (lenient, non-canonical) timestamp, and the
rejection of the fourteen-digit name. -/
theorem C9_amended_witness :
    parse_measurement_datetime ("measurement_" ++ "250102030405" ++ ".cbor") =
      .ok ⟨2025, 1, 2, 3, 4, 5⟩ ∧
    parse_measurement_datetime ("measurement_" ++ "25110223595" ++ ".cbor") =
      .ok ⟨2025, 11, 2, 23, 59, 5⟩ ∧
    (∃ ts : String, "measurement_991231235959.cbor" = "measurement_" ++ ts ++ ".cbor" ∧
      parseYYMMDDHHMMSS ts = some ⟨1999, 12, 31, 23, 59, 59⟩) ∧
    (parse_measurement_datetime ("measurement_" ++ "991231235959" ++ ".cbor") =
      .ok ⟨1999, 12, 31, 23, 59, 59⟩ ∧
      matchesMeasurementPattern 12 ("measurement_" ++ "991231235959" ++ ".cbor")) ∧
    parse_measurement_datetime "measurement_20250102030405.cbor" =
      .panic "Unexpected criterion measurement date and time format" :=
  ⟨C9_amended_chrono_lenient_pattern.1 "250102030405" ⟨2025, 1, 2, 3, 4, 5⟩ rfl,
   C9_amended_chrono_lenient_pattern.1 "25110223595" ⟨2025, 11, 2, 23, 59, 5⟩ rfl,
   C9_amended_chrono_lenient_pattern.2.1 "measurement_991231235959.cbor"
     ⟨1999, 12, 31, 23, 59, 59⟩ rfl,
   C9_amended_chrono_lenient_pattern.2.2.1 "991231235959" ⟨1999, 12, 31, 23, 59, 59⟩ rfl,
   C9_amended_chrono_lenient_pattern.2.2.2⟩

/-- C10: constructing a search panics when the given Cargo root
(respectively target) directory does not exist, while a target directory
that exists always yields a search whose data root is
`<target>/criterion/data/main` (whether or not that deeper path exists),
and a missing data root makes the benchmark iterator yield no items and no
errors. -/
theorem C10_constructors_panic_missing_data_root_graceful :
    (∀ (exists_dir : List String → Bool) (cargoRoot : List String),
      exists_dir cargoRoot = false →
      Search.in_cargo_root exists_dir cargoRoot =
        .panic "Specified Cargo root does not exist") ∧
    (∀ (exists_dir : List String → Bool) (targetPath : List String),
      exists_dir targetPath = false →
      Search.in_target_dir exists_dir targetPath =
        .panic "Specified target directory does not exist") ∧
    (∀ (exists_dir : List String → Bool) (targetPath : List String),
      exists_dir targetPath = true →
      Search.in_target_dir exists_dir targetPath =
        .ok ⟨targetPath ++ ["criterion", "data", "main"]⟩) ∧
    find_all none = [] := by
  refine ⟨fun f r h => ?_, fun f t h => ?_, fun f t h => ?_, rfl⟩
  · simp [Search.in_cargo_root, h]
  · simp [Search.in_target_dir, h]
  · simp [Search.in_target_dir, h]

/-- C10 witness: concrete instances of all four parts. -/
theorem C10_witness :
    Search.in_cargo_root (fun _ => false) ["proj"] =
      .panic "Specified Cargo root does not exist" ∧
    Search.in_target_dir (fun _ => false) ["proj", "target"] =
      .panic "Specified target directory does not exist" ∧
    Search.in_target_dir (fun _ => true) ["proj", "target"] =
      .ok ⟨["proj", "target", "criterion", "data", "main"]⟩ ∧
    find_all none = [] :=
  ⟨C10_constructors_panic_missing_data_root_graceful.1 _ _ rfl,
   C10_constructors_panic_missing_data_root_graceful.2.1 _ _ rfl,
   C10_constructors_panic_missing_data_root_graceful.2.2.1 _ _ rfl,
   C10_constructors_panic_missing_data_root_graceful.2.2.2⟩

/-- C6: for a benchmark path already present in the persisted index (known
measurements and a persisted metadata modification time), one iteration of
the synchronization loop reads and decodes the metadata file exactly when
the file's current modification time is strictly greater than the persisted
one; an equal modification time counts as unchanged and triggers no decode
at all. -/
theorem C6_metadata_reread_iff_strictly_newer :
    ∀ (knownMeasurements : List (String × List String)) (dbMtimes : List (String × Int))
      (b : SyncBenchmarkInput) (ids : List String) (databaseMtime : Int),
      lookupAssoc knownMeasurements b.relativePath = some ids →
      lookupAssoc dbMtimes b.relativePath = some databaseMtime →
      (syncBenchmarkStep knownMeasurements dbMtimes b = .ok [.decodeMetadataFile] ↔
        b.fileMtime > databaseMtime) ∧
      (b.fileMtime = databaseMtime →
        syncBenchmarkStep knownMeasurements dbMtimes b = .ok []) := by
  intro km dm b ids dbm hk hm
  constructor
  · simp only [syncBenchmarkStep, hk, hm]
    by_cases h : b.fileMtime > dbm
    · rw [if_pos h]
      exact ⟨fun _ => h, fun _ => rfl⟩
    · rw [if_neg h]
      constructor
      · intro hx
        exact absurd ((Except.ok.injEq _ _).mp hx) (by simp)
      · intro hx
        exact absurd hx h
  · intro he
    simp only [syncBenchmarkStep, hk, hm]
    rw [if_neg (by omega)]

/-- C6 witness: a concrete known path with persisted modification time 5 and
file modification time 6. -/
theorem C6_witness :
    (syncBenchmarkStep [("p", ["measurement_250101000000.cbor"])] [("p", 5)]
        ⟨"p", 6, []⟩ = .ok [.decodeMetadataFile] ↔ (6 : Int) > 5) ∧
    ((6 : Int) = 5 →
      syncBenchmarkStep [("p", ["measurement_250101000000.cbor"])] [("p", 5)]
        ⟨"p", 6, []⟩ = .ok []) :=
  C6_metadata_reread_iff_strictly_newer [("p", ["measurement_250101000000.cbor"])]
    [("p", 5)] ⟨"p", 6, []⟩ ["measurement_250101000000.cbor"] 5 rfl rfl

/-- C7: evaluation of the synchronization loop body at the failing input of
the claim: the persisted snapshot knows one measurement row for path `p`
and the filesystem has gained exactly one new measurement file, yet the
pass performs no measurement read and no measurement insertion whatsoever
(these steps are TODO comments in the source) — with unchanged metadata it
performs no action at all, and with newer metadata it only re-decodes the
metadata file. -/
theorem C7_sync_inserts_no_measurement_rows :
    syncBenchmarkStep [("p", ["measurement_250101000000.cbor"])] [("p", 5)]
        ⟨"p", 5, ["measurement_250102030405.cbor", "measurement_250101000000.cbor"]⟩ =
      .ok [] ∧
    syncBenchmarkStep [("p", ["measurement_250101000000.cbor"])] [("p", 5)]
        ⟨"p", 7, ["measurement_250102030405.cbor", "measurement_250101000000.cbor"]⟩ =
      .ok [.decodeMetadataFile] := ⟨rfl, rfl⟩

theorem strLt_asymm {s1 s2 : String} (h : strLt s1 s2 = true) : strLt s2 s1 = false :=
  strLtData_asymm h

theorem strLt_trans {s1 s2 s3 : String} (h1 : strLt s1 s2 = true)
    (h2 : strLt s2 s3 = true) : strLt s1 s3 = true :=
  strLtData_trans h1 h2

theorem strLt_antisymm {s1 s2 : String} (h1 : strLt s1 s2 = false)
    (h2 : strLt s2 s1 = false) : s1 = s2 :=
  String.ext (strLtData_antisymm h1 h2)

theorem ne_of_strLt {s1 s2 : String} (h : strLt s1 s2 = true) : s1 ≠ s2 := by
  intro he
  subst he
  rw [strLt, strLtData_irrefl] at h
  exact Bool.false_ne_true h

theorem cmpStr_ne_gt {s1 s2 : String} :
    (cmpStr s1 s2 != Ordering.gt) = !(strLt s2 s1) := by
  rw [cmpStr]
  cases h12 : strLt s1 s2 with
  | true =>
    rw [if_pos rfl, strLt_asymm h12]
    rfl
  | false =>
    rw [if_neg (by simp)]
    cases h21 : strLt s2 s1 with
    | true => rw [if_pos rfl]; rfl
    | false => rw [if_neg (by simp)]; rfl

theorem entryLE_tf (e1 e2 : FsNode) (h1 : e1.isFile = true) (h2 : e2.isFile = false) :
    entryLE e1 e2 = true := by
  rw [entryLE, cmpEntries, h1, h2]
  rfl

theorem entryLE_ft (e1 e2 : FsNode) (h1 : e1.isFile = false) (h2 : e2.isFile = true) :
    entryLE e1 e2 = false := by
  rw [entryLE, cmpEntries, h1, h2]
  rfl

theorem entryLE_tt (e1 e2 : FsNode) (h1 : e1.isFile = true) (h2 : e2.isFile = true) :
    entryLE e1 e2 = !(strLt e1.name e2.name) := by
  rw [entryLE, cmpEntries, h1, h2]
  exact cmpStr_ne_gt

theorem entryLE_ff (e1 e2 : FsNode) (h1 : e1.isFile = false) (h2 : e2.isFile = false) :
    entryLE e1 e2 = !(strLt e2.name e1.name) := by
  rw [entryLE, cmpEntries, h1, h2]
  exact cmpStr_ne_gt

theorem entryLE_total (a b : FsNode) : (entryLE a b || entryLE b a) = true := by
  cases h1 : a.isFile <;> cases h2 : b.isFile
  · rw [entryLE_ff a b h1 h2, entryLE_ff b a h2 h1]
    cases h21 : strLt b.name a.name with
    | true => rw [strLt_asymm h21]; rfl
    | false => rfl
  · rw [entryLE_tf b a h2 h1]
    simp
  · rw [entryLE_tf a b h1 h2]
    rfl
  · rw [entryLE_tt a b h1 h2, entryLE_tt b a h2 h1]
    cases h12 : strLt a.name b.name with
    | true => rw [strLt_asymm h12]; rfl
    | false => rfl

theorem entryLE_trans (a b c : FsNode) (hab : entryLE a b = true)
    (hbc : entryLE b c = true) : entryLE a c = true := by
  cases h1 : a.isFile <;> cases h2 : b.isFile <;> cases h3 : c.isFile
  · -- all directories: ascending name order
    rw [entryLE_ff a b h1 h2] at hab
    rw [entryLE_ff b c h2 h3] at hbc
    rw [entryLE_ff a c h1 h3]
    have hba : strLt b.name a.name = false := by
      revert hab; cases strLt b.name a.name <;> simp
    have hcb : strLt c.name b.name = false := by
      revert hbc; cases strLt c.name b.name <;> simp
    cases hca : strLt c.name a.name with
    | false => rfl
    | true =>
      cases hab2 : strLt a.name b.name with
      | false =>
        rw [strLt_antisymm hab2 hba] at hca
        rw [hca] at hcb
        exact absurd hcb (by simp)
      | true =>
        have := strLt_trans hca hab2
        rw [this] at hcb
        exact absurd hcb (by simp)
  · rw [entryLE_ft b c h2 h3] at hbc
    exact absurd hbc (by simp)
  · rw [entryLE_ft a b h1 h2] at hab
    exact absurd hab (by simp)
  · rw [entryLE_ft a b h1 h2] at hab
    exact absurd hab (by simp)
  · exact entryLE_tf a c h1 h3
  · rw [entryLE_ft b c h2 h3] at hbc
    exact absurd hbc (by simp)
  · exact entryLE_tf a c h1 h3
  · -- all files: descending name order
    rw [entryLE_tt a b h1 h2] at hab
    rw [entryLE_tt b c h2 h3] at hbc
    rw [entryLE_tt a c h1 h3]
    have hab' : strLt a.name b.name = false := by
      revert hab; cases strLt a.name b.name <;> simp
    have hbc' : strLt b.name c.name = false := by
      revert hbc; cases strLt b.name c.name <;> simp
    cases hac : strLt a.name c.name with
    | false => rfl
    | true =>
      cases hba : strLt b.name a.name with
      | false =>
        rw [← strLt_antisymm hab' hba] at hbc'
        rw [hac] at hbc'
        exact absurd hbc' (by simp)
      | true =>
        have := strLt_trans hba hac
        rw [this] at hbc'
        exact absurd hbc' (by simp)

theorem strLtData_append_left (p : List Char) {x y : List Char}
    (h : strLtData x y = true) : strLtData (p ++ x) (p ++ y) = true := by
  induction p with
  | nil => exact h
  | cons c r ih =>
    rw [List.cons_append, List.cons_append, strLtData_cons,
      if_neg (lt_irrefl c), if_neg (lt_irrefl c)]
    exact ih

theorem strLtData_append_of_lt {x y : List Char} (h : strLtData x y = true)
    (hlen : x.length = y.length) (u v : List Char) :
    strLtData (x ++ u) (y ++ v) = true := by
  induction x generalizing y with
  | nil =>
    cases y with
    | nil => simp [strLtData] at h
    | cons c2 r2 => simp at hlen
  | cons c1 r1 ih =>
    cases y with
    | nil => simp at hlen
    | cons c2 r2 =>
      rw [strLtData_cons] at h
      rw [List.cons_append, List.cons_append, strLtData_cons]
      rcases lt_trichotomy c1 c2 with hc | hc | hc
      · rw [if_pos hc]
      · subst hc
        rw [if_neg (lt_irrefl c1), if_neg (lt_irrefl c1)] at h ⊢
        exact ih h (by simpa using hlen)
      · rw [if_neg (asymm hc), if_pos hc] at h
        simp at h

theorem strLtData_head {c1 c2 : Char} (h : c1 < c2) (r1 r2 : List Char) :
    strLtData (c1 :: r1) (c2 :: r2) = true := by
  rw [strLtData_cons, if_pos h]

theorem strLt_timestamps {t1 t2 : String} (h : strLt t1 t2 = true)
    (hlen : t1.length = t2.length) :
    strLt ("measurement_" ++ t1 ++ ".cbor") ("measurement_" ++ t2 ++ ".cbor") = true := by
  show strLtData ("measurement_" ++ t1 ++ ".cbor").data
    ("measurement_" ++ t2 ++ ".cbor").data = true
  rw [String.data_append, String.data_append, String.data_append, String.data_append,
    List.append_assoc, List.append_assoc]
  exact strLtData_append_left _ (strLtData_append_of_lt h hlen _ _)

theorem strLt_bcbor_measurement (t : String) :
    strLt "benchmark.cbor" ("measurement_" ++ t ++ ".cbor") = true := by
  show strLtData "benchmark.cbor".data ("measurement_" ++ t ++ ".cbor").data = true
  rw [String.data_append, String.data_append]
  exact strLtData_head (by decide) _ _

theorem mergeSort_three {α : Type} (le : α → α → Bool) (a b c : α)
    (hab : le a b = false) (hbc : le b c = true) (hac : le a c = true) :
    List.mergeSort [a, b, c] le = [b, a, c] := by
  simp [List.mergeSort, List.splitInTwo, List.merge, hab, hbc, hac]

theorem groupStep_end (acc : List Entry) : groupStep acc [] = flushFiles acc := rfl

theorem groupStep_empty_dir {e : Entry} (rest : List Entry) (h : e.isFile = false) :
    groupStep [] (e :: rest) = groupStep [] rest := by
  simp only [groupStep, List.getLast?_nil, h]
  rfl

theorem groupStep_empty_file {e : Entry} (rest : List Entry) (h : e.isFile = true) :
    groupStep [] (e :: rest) = groupStep [e] rest := by
  simp only [groupStep, List.getLast?_nil, h]
  rfl

theorem groupStep_append (acc : List Entry) (lastFile e : Entry) (rest : List Entry)
    (hl : acc.getLast? = some lastFile)
    (hc : e.depth = lastFile.depth ∧ e.isFile = true ∧ e.parent = lastFile.parent) :
    groupStep acc (e :: rest) = groupStep (acc ++ [e]) rest := by
  simp only [groupStep, hl, if_pos hc]

theorem Benchmark.new_ok {m : Entry} {ms : List Entry} {b : Benchmark}
    (h : Benchmark.new m ms = .ok b) :
    m.isFile = true ∧ m.name = "benchmark.cbor" ∧ ms ≠ [] ∧ b = ⟨m.parent, m, ms⟩ := by
  rw [Benchmark.new] at h
  by_cases h1 : m.isFile = true ∧ m.name = "benchmark.cbor"
  · rw [if_pos h1] at h
    by_cases h2 : ms.isEmpty
    · rw [if_pos h2] at h
      exact absurd h (by simp)
    · rw [if_neg h2] at h
      have hb := (Panics.ok.injEq _ _).mp h
      exact ⟨h1.1, h1.2, by simpa [List.isEmpty_iff] using h2, hb.symm⟩
  · rw [if_neg h1] at h
    exact absurd h (by simp)

theorem flushFiles_ok {files : List Entry} {b : Benchmark}
    (h : Panics.ok b ∈ flushFiles files) :
    b.metadata.isFile = true ∧ b.metadata.name = "benchmark.cbor" ∧
      b.measurements ≠ [] := by
  rw [flushFiles] at h
  cases he : emitBenchmark files with
  | none => rw [he] at h; simp at h
  | some x =>
    rw [he] at h
    simp only [List.mem_singleton] at h
    subst h
    rw [emitBenchmark] at he
    cases hl : files.getLast? with
    | none => rw [hl] at he; simp at he
    | some m =>
      rw [hl] at he
      simp only [Option.some.injEq] at he
      rcases Benchmark.new_ok he with ⟨h1, h2, h3, rfl⟩
      exact ⟨h1, h2, h3⟩

theorem groupStep_ok {entries : List Entry} : ∀ {acc : List Entry} {b : Benchmark},
    Panics.ok b ∈ groupStep acc entries →
    b.metadata.isFile = true ∧ b.metadata.name = "benchmark.cbor" ∧
      b.measurements ≠ [] := by
  induction entries with
  | nil =>
    intro acc b h
    exact flushFiles_ok h
  | cons e rest ih =>
    intro acc b h
    simp only [groupStep] at h
    cases hl : acc.getLast? with
    | none =>
      rw [hl] at h
      exact ih h
    | some lastFile =>
      simp only [hl] at h
      by_cases hc : e.depth = lastFile.depth ∧ e.isFile = true ∧ e.parent = lastFile.parent
      · rw [if_pos hc] at h
        exact ih h
      · rw [if_neg hc] at h
        rcases List.mem_append.mp h with h' | h'
        · exact flushFiles_ok h'
        · exact ih h'

/-- C3: every benchmark unit yielded by the walk has a metadata reference
that is a file with exactly the fixed literal name `benchmark.cbor` and a
non-empty measurement list, and a flushed non-empty accumulator violating
either condition makes the flush produce a fatal panic (never an empty,
silently-skipped result): one panic when the last accumulated file is not a
file named `benchmark.cbor`, another when it is but no other file was
accumulated. -/
theorem C3_unit_invariant_violations_fatal :
    (∀ (rootChildren : List FsNode) (b : Benchmark),
      Panics.ok b ∈ walkBenchmarks rootChildren →
      b.metadata.isFile = true ∧ b.metadata.name = "benchmark.cbor" ∧
        b.measurements ≠ []) ∧
    (∀ (files : List Entry) (m : Entry), files.getLast? = some m →
      ¬ (m.isFile = true ∧ m.name = "benchmark.cbor") →
      emitBenchmark files =
        some (.panic "Encountered unexpected file in Criterion data directory")) ∧
    (∀ (files : List Entry) (m : Entry), files.getLast? = some m →
      m.isFile = true → m.name = "benchmark.cbor" → files.dropLast = [] →
      emitBenchmark files =
        some (.panic "Attempted to construct a Benchmark even though there is no measurements")) := by
  refine ⟨fun roots b h => ?_, fun files m hl hbad => ?_, fun files m hl h1 h2 h3 => ?_⟩
  · rw [walkBenchmarks] at h
    exact groupStep_ok h
  · simp only [emitBenchmark, hl]
    rw [Benchmark.new, if_neg hbad]
  · simp only [emitBenchmark, hl]
    rw [Benchmark.new, if_pos ⟨h1, h2⟩, if_pos (by rw [h3]; rfl)]

/-- C3 witness: a concrete two-file benchmark directory for the invariant,
and concrete violating accumulators for both fatal panics. -/
theorem C3_witness :
    ((⟨[], ⟨"benchmark.cbor", true, [], 1⟩,
        [⟨"measurement_250101000000.cbor", true, [], 1⟩]⟩ : Benchmark).metadata.isFile = true ∧
      (⟨[], ⟨"benchmark.cbor", true, [], 1⟩,
        [⟨"measurement_250101000000.cbor", true, [], 1⟩]⟩ : Benchmark).metadata.name =
          "benchmark.cbor" ∧
      (⟨[], ⟨"benchmark.cbor", true, [], 1⟩,
        [⟨"measurement_250101000000.cbor", true, [], 1⟩]⟩ : Benchmark).measurements ≠ []) ∧
    emitBenchmark [⟨"rogue.txt", true, [], 1⟩] =
      some (.panic "Encountered unexpected file in Criterion data directory") ∧
    emitBenchmark [⟨"benchmark.cbor", true, [], 1⟩] =
      some (.panic "Attempted to construct a Benchmark even though there is no measurements") := by
  refine ⟨C3_unit_invariant_violations_fatal.1
      [.file "measurement_250101000000.cbor", .file "benchmark.cbor"] _ ?_,
    C3_unit_invariant_violations_fatal.2.1 [⟨"rogue.txt", true, [], 1⟩]
      ⟨"rogue.txt", true, [], 1⟩ rfl (by decide),
    C3_unit_invariant_violations_fatal.2.2 [⟨"benchmark.cbor", true, [], 1⟩]
      ⟨"benchmark.cbor", true, [], 1⟩ rfl rfl rfl rfl⟩
  have hle : entryLE (.file "measurement_250101000000.cbor") (.file "benchmark.cbor") = true := by
    decide
  have hw : walkFromRoot [.file "measurement_250101000000.cbor", .file "benchmark.cbor"] =
      [⟨"measurement_250101000000.cbor", true, [], 1⟩, ⟨"benchmark.cbor", true, [], 1⟩] := by
    simp [walkFromRoot, sortChildren, List.mergeSort, hle, walkNodes, walkNode]
  rw [walkBenchmarks, hw]
  simp [groupStep, flushFiles, emitBenchmark, Benchmark.new, List.getLast?]

/-- C2: the walk emits the children of every directory with all files before
any subdirectory, files in strictly descending name order and
subdirectories in strictly ascending name order (directory listings have
pairwise distinct names); consequently, walking a leaf directory holding an
older measurement file `measurement_<t1>.cbor`, a newer measurement file
`measurement_<t2>.cbor` (same timestamp width, `t1` before `t2`) and the
metadata file produces exactly one unit whose measurement sequence lists
the newer file before the older one and whose metadata reference
(`benchmark.cbor`) differs from both measurement names. -/
theorem C2_emission_order_and_newest_first :
    (∀ children : List FsNode,
      children.Pairwise (fun a b => a.name ≠ b.name) →
      (sortChildren children).Pairwise (fun a b =>
        (a.isFile = true ∧ b.isFile = false) ∨
        (a.isFile = true ∧ b.isFile = true ∧ strLt b.name a.name = true) ∨
        (a.isFile = false ∧ b.isFile = false ∧ strLt a.name b.name = true))) ∧
    (∀ (dname t1 t2 : String), strLt t1 t2 = true → t1.length = t2.length →
      walkBenchmarks [.dir dname [.file ("measurement_" ++ t1 ++ ".cbor"),
          .file ("measurement_" ++ t2 ++ ".cbor"), .file "benchmark.cbor"]] =
        [.ok ⟨[dname], ⟨"benchmark.cbor", true, [dname], 2⟩,
          [⟨"measurement_" ++ t2 ++ ".cbor", true, [dname], 2⟩,
           ⟨"measurement_" ++ t1 ++ ".cbor", true, [dname], 2⟩]⟩] ∧
      "benchmark.cbor" ≠ "measurement_" ++ t1 ++ ".cbor" ∧
      "benchmark.cbor" ≠ "measurement_" ++ t2 ++ ".cbor") := by
  constructor
  · intro children hnames
    have hs := @List.sorted_mergeSort _ entryLE entryLE_trans entryLE_total children
    have hperm := List.mergeSort_perm children entryLE
    have hnames' : (sortChildren children).Pairwise (fun a b => a.name ≠ b.name) :=
      (List.Perm.pairwise_iff (fun h => Ne.symm h) hperm).mpr hnames
    have hcomb := hs.and hnames'
    refine hcomb.imp ?_
    intro a b hab
    obtain ⟨hle, hne⟩ := hab
    cases h1 : a.isFile <;> cases h2 : b.isFile
    · rw [entryLE_ff a b h1 h2] at hle
      have hba : strLt b.name a.name = false := by
        revert hle; cases strLt b.name a.name <;> simp
      cases hab2 : strLt a.name b.name with
      | true => exact Or.inr (Or.inr ⟨rfl, rfl, rfl⟩)
      | false => exact absurd (strLt_antisymm hab2 hba) hne
    · rw [entryLE_ft a b h1 h2] at hle
      exact absurd hle (by simp)
    · exact Or.inl ⟨rfl, rfl⟩
    · rw [entryLE_tt a b h1 h2] at hle
      have hab' : strLt a.name b.name = false := by
        revert hle; cases strLt a.name b.name <;> simp
      cases hba : strLt b.name a.name with
      | true => exact Or.inr (Or.inl ⟨rfl, rfl, rfl⟩)
      | false => exact absurd (strLt_antisymm hab' hba) hne
  · intro dname t1 t2 ht hlen
    have h12 : strLt ("measurement_" ++ t1 ++ ".cbor")
        ("measurement_" ++ t2 ++ ".cbor") = true := strLt_timestamps ht hlen
    have hb1 : strLt "benchmark.cbor" ("measurement_" ++ t1 ++ ".cbor") = true :=
      strLt_bcbor_measurement t1
    have hb2 : strLt "benchmark.cbor" ("measurement_" ++ t2 ++ ".cbor") = true :=
      strLt_bcbor_measurement t2
    have hab : entryLE (.file ("measurement_" ++ t1 ++ ".cbor"))
        (.file ("measurement_" ++ t2 ++ ".cbor")) = false := by
      rw [entryLE_tt (.file ("measurement_" ++ t1 ++ ".cbor"))
        (.file ("measurement_" ++ t2 ++ ".cbor")) rfl rfl]
      simp only [FsNode.name]
      rw [h12]
      rfl
    have hbc : entryLE (.file ("measurement_" ++ t2 ++ ".cbor"))
        (.file "benchmark.cbor") = true := by
      rw [entryLE_tt (.file ("measurement_" ++ t2 ++ ".cbor"))
        (.file "benchmark.cbor") rfl rfl]
      simp only [FsNode.name]
      rw [strLt_asymm hb2]
      rfl
    have hac : entryLE (.file ("measurement_" ++ t1 ++ ".cbor"))
        (.file "benchmark.cbor") = true := by
      rw [entryLE_tt (.file ("measurement_" ++ t1 ++ ".cbor"))
        (.file "benchmark.cbor") rfl rfl]
      simp only [FsNode.name]
      rw [strLt_asymm hb1]
      rfl
    have hsort : sortChildren [.file ("measurement_" ++ t1 ++ ".cbor"),
        .file ("measurement_" ++ t2 ++ ".cbor"), .file "benchmark.cbor"] =
        [.file ("measurement_" ++ t2 ++ ".cbor"),
         .file ("measurement_" ++ t1 ++ ".cbor"), .file "benchmark.cbor"] := by
      rw [sortChildren]
      exact mergeSort_three entryLE _ _ _ hab hbc hac
    have hw : walkFromRoot [.dir dname [.file ("measurement_" ++ t1 ++ ".cbor"),
        .file ("measurement_" ++ t2 ++ ".cbor"), .file "benchmark.cbor"]] =
        [⟨dname, false, [], 1⟩,
         ⟨"measurement_" ++ t2 ++ ".cbor", true, [dname], 2⟩,
         ⟨"measurement_" ++ t1 ++ ".cbor", true, [dname], 2⟩,
         ⟨"benchmark.cbor", true, [dname], 2⟩] := by
      rw [walkFromRoot, sortChildren, List.mergeSort_singleton]
      simp [walkNodes, walkNode, hsort]
    refine ⟨?_, ne_of_strLt hb1, ne_of_strLt hb2⟩
    rw [walkBenchmarks, hw]
    rw [groupStep_empty_dir _ rfl]
    rw [groupStep_empty_file _ rfl]
    rw [groupStep_append [⟨"measurement_" ++ t2 ++ ".cbor", true, [dname], 2⟩]
      ⟨"measurement_" ++ t2 ++ ".cbor", true, [dname], 2⟩
      ⟨"measurement_" ++ t1 ++ ".cbor", true, [dname], 2⟩ _ rfl ⟨rfl, rfl, rfl⟩]
    simp only [List.singleton_append]
    rw [groupStep_append [⟨"measurement_" ++ t2 ++ ".cbor", true, [dname], 2⟩,
        ⟨"measurement_" ++ t1 ++ ".cbor", true, [dname], 2⟩]
      ⟨"measurement_" ++ t1 ++ ".cbor", true, [dname], 2⟩
      ⟨"benchmark.cbor", true, [dname], 2⟩ _ rfl ⟨rfl, rfl, rfl⟩]
    rfl

/-- C2 witness: the ordering statement at a concrete three-entry directory
listing, and the newest-first statement at a concrete leaf directory. -/
theorem C2_witness :
    (sortChildren [FsNode.file "benchmark.cbor", FsNode.dir "zeta" [],
        FsNode.file "measurement_250101000000.cbor"]).Pairwise (fun a b =>
      (a.isFile = true ∧ b.isFile = false) ∨
      (a.isFile = true ∧ b.isFile = true ∧ strLt b.name a.name = true) ∨
      (a.isFile = false ∧ b.isFile = false ∧ strLt a.name b.name = true)) ∧
    (walkBenchmarks [.dir "g" [.file ("measurement_" ++ "250101000000" ++ ".cbor"),
        .file ("measurement_" ++ "250102030405" ++ ".cbor"), .file "benchmark.cbor"]] =
      [.ok ⟨["g"], ⟨"benchmark.cbor", true, ["g"], 2⟩,
        [⟨"measurement_" ++ "250102030405" ++ ".cbor", true, ["g"], 2⟩,
         ⟨"measurement_" ++ "250101000000" ++ ".cbor", true, ["g"], 2⟩]⟩] ∧
      "benchmark.cbor" ≠ "measurement_" ++ "250101000000" ++ ".cbor" ∧
      "benchmark.cbor" ≠ "measurement_" ++ "250102030405" ++ ".cbor") :=
  ⟨C2_emission_order_and_newest_first.1 [FsNode.file "benchmark.cbor", FsNode.dir "zeta" [],
      FsNode.file "measurement_250101000000.cbor"] (by decide),
   C2_emission_order_and_newest_first.2 "g" "250101000000" "250102030405" (by decide) rfl⟩

/-- C8 counterexample: the walk itself does not enforce the round trip. On
the concrete tree whose leaf directory is named `WRONG`, the walk yields a
unit with relative path `WRONG`; a decoder consistent with that unit reads
its metadata to a record whose identity decodes to the non-ambiguous plain
function variant for the string `f`; yet the sanitized identity string `f`
does not reproduce the observed directory name `WRONG`, so the claim that
every walked unit with a non-ambiguous identity satisfies the round trip is
false on the code. -/
theorem C8_counterexample_roundtrip_not_enforced :
    walkBenchmarks [.dir "WRONG" [.file "measurement_250101000000.cbor",
        .file "benchmark.cbor"]] =
      [.ok ⟨["WRONG"], ⟨"benchmark.cbor", true, ["WRONG"], 2⟩,
        [⟨"measurement_250101000000.cbor", true, ["WRONG"], 2⟩]⟩] ∧
    Benchmark.metadataRead (.ok [0])
        (fun _ => some ⟨⟨"f", none, none, none⟩, "measurement_250101000000.cbor"⟩) =
      .ok ⟨⟨"f", none, none, none⟩, "measurement_250101000000.cbor"⟩ ∧
    RawBenchmarkId.decode ⟨"f", none, none, none⟩ = .ok (.BenchFunction "f") ∧
    make_filename_safe "f" = "f" ∧
    ("f" : String) ≠ "WRONG" := by
  refine ⟨?_, rfl, rfl, rfl, by decide⟩
  have hle : entryLE (.file "measurement_250101000000.cbor")
      (.file "benchmark.cbor") = true := by decide
  have hw : walkFromRoot [.dir "WRONG" [.file "measurement_250101000000.cbor",
      .file "benchmark.cbor"]] =
      [⟨"WRONG", false, [], 1⟩, ⟨"measurement_250101000000.cbor", true, ["WRONG"], 2⟩,
       ⟨"benchmark.cbor", true, ["WRONG"], 2⟩] := by
    simp [walkFromRoot, sortChildren, List.mergeSort, hle, walkNodes, walkNode]
  rw [walkBenchmarks, hw]
  rfl

/-- C8 amended: the round trip is checked, not guaranteed, by the example
verification tool: whenever its cross-checks accept a benchmark's observed
directory names, applying the filename-safety mapping to the identity's
strings reproduces those names — the group directory equals the sanitized
group string and the benchmark directory equals the sanitized
function-or-value string (identities with neither field, such as plain
function identities, are rejected by the tool, and the walk itself never
compares paths with identities). -/
theorem C8_amended_accepted_checks_reproduce_path :
    ∀ (groupDirectory benchDirectory : String) (id : RawBenchmarkId),
      checkGroupDirectory groupDirectory id.group_or_function_id = .ok () →
      checkBenchDirectory benchDirectory id = .ok () →
      groupDirectory = make_filename_safe id.group_or_function_id ∧
      ∃ s : String, id.function_id_in_group.or id.value_str = some s ∧
        benchDirectory = make_filename_safe s := by
  intro gd bd id hg hb
  constructor
  · rw [checkGroupDirectory] at hg
    by_cases h : gd = make_filename_safe id.group_or_function_id
    · exact h
    · rw [if_neg h] at hg
      exact absurd hg (by simp)
  · rw [checkBenchDirectory] at hb
    cases ho : id.function_id_in_group.or id.value_str with
    | none =>
      simp only [ho] at hb
      exact absurd hb (by simp)
    | some s =>
      simp only [ho] at hb
      by_cases h : bd = make_filename_safe s
      · exact ⟨s, rfl, h⟩
      · rw [if_neg h] at hb
        exact absurd hb (by simp)

/-- C8 amended witness: a grouped identity with sanitizable characters whose
observed directory names pass both cross-checks. -/
theorem C8_amended_witness :
    "g_1" = make_filename_safe "g/1" ∧
    ∃ s : String, (some "f:2").or none = some s ∧ "f_2" = make_filename_safe s :=
  C8_amended_accepted_checks_reproduce_path "g_1" "f_2" ⟨"g/1", some "f:2", none, none⟩
    rfl rfl

end CriterionCbor
